import Mathlib

/-!
# Verification of the skyshot-api query/pagination core

This file gives a shallow embedding, in Lean, of the query-composition and
pagination core of the `skyshot-api` repository:

* `src/utils/ApiFeatures.js` — the `ApiFeatures` class (`filter`, `sort`,
  `limitFields`, `search`, `paginate`);
* `src/controllers/dashboardController.js` — the generic controller factory
  (`getAll`, `searchDocuments`) and the gallery search (`searchUploads`);
* `src/controllers/settingsController.js` — `getAllSettings`;
* the missions listing (`getOpenMissions`).

JavaScript numbers that in practice hold non-negative integers (page numbers,
limits, document counts) are modelled as `Nat`/`Int`; fallible parses are
`Option`.  Query strings parsed by `qs` with `depth: 1` are modelled as
association lists whose values are either strings or one-level string maps.
-/

namespace Skyshot

/-! ## Pagination (`ApiFeatures.paginate`, src/utils/ApiFeatures.js lines 78-102)

`paginate` reads `this.queryString.page` and `this.queryString.limit` and
coerces them with `Number(x) || default`.  In JavaScript, `Number` of a missing
or non-numeric parameter is `NaN` (falsy) and `Number("0")` is `0` (falsy), so
in both cases the default applies.  `numOr` models this coercion on an already
numerically-parsed parameter (`none` covers both a missing parameter and a
parameter that does not parse as a natural number). -/

def numOr (raw : Option Nat) (d : Nat) : Nat :=
  match raw with
  | none => d
  | some 0 => d
  | some n => n

/-- The `paginationResults` object built by `ApiFeatures.paginate`.
`nextPage`/`previousPage` are `Option` because the source only sets those
properties conditionally. -/
structure PaginationResults where
  currentPage : Nat
  limit : Nat
  numberOfPages : Nat
  nextPage : Option Nat
  previousPage : Option Nat
  deriving Repr, DecidableEq

/-- Body of `ApiFeatures.paginate` after the `Number(...) || default`
coercions (so `page` and `limit` here are the coerced values).  `skip` and
`endIndex` are computed in `Int` to mirror JavaScript arithmetic, which does
not truncate at zero.  `Math.ceil(countDocuments / limit)` is exact rational
division followed by ceiling for the integer ranges involved. -/
def paginateCore (page limit countDocuments : Nat) : PaginationResults :=
  let skip : Int := ((page : Int) - 1) * (limit : Int)
  let endIndex : Int := (page : Int) * (limit : Int)
  { currentPage := page
    limit := limit
    numberOfPages := ⌈(countDocuments : ℚ) / (limit : ℚ)⌉₊
    nextPage := if endIndex < (countDocuments : Int) then some (page + 1) else none
    previousPage := if 0 < skip then some (page - 1) else none }

/-- Model of `ApiFeatures.paginate`: coerce the raw `page`/`limit` parameters
(`|| 1` and `|| 25`) and build the pagination results. -/
def paginate (rawPage rawLimit : Option Nat) (countDocuments : Nat) : PaginationResults :=
  paginateCore (numOr rawPage 1) (numOr rawLimit 25) countDocuments

theorem numOr_pos (raw : Option Nat) (d : Nat) (hd : 1 ≤ d) : 1 ≤ numOr raw d := by
  match raw with
  | none => exact hd
  | some 0 => exact hd
  | some (n + 1) => exact Nat.succ_le_succ (Nat.zero_le n)

/-- The rational ceiling computed by `Math.ceil(count / limit)` agrees with
natural ceiling division `(count + limit - 1) / limit` whenever `1 ≤ limit`. -/
theorem ceil_div_eq_ceilDiv (c l : Nat) (hl : 1 ≤ l) :
    ⌈(c : ℚ) / (l : ℚ)⌉₊ = (c + l - 1) / l := by
  have hl0 : (0 : ℚ) < (l : ℚ) := by exact_mod_cast hl
  have key : ⌈(c : ℚ) / (l : ℚ)⌉₊ = c ⌈/⌉ l := by
    apply le_antisymm
    · rw [Nat.ceil_le]
      rw [div_le_iff₀ hl0]
      have h1 : c ≤ l • (c ⌈/⌉ l) := le_smul_ceilDiv (Nat.pos_of_ne_zero (by omega))
      have h1' : c ≤ (c ⌈/⌉ l) * l := by
        simpa [smul_eq_mul, Nat.mul_comm] using h1
      exact_mod_cast h1'
    · rw [ceilDiv_le_iff_le_smul (Nat.pos_of_ne_zero (by omega))]
      have h2 : (c : ℚ) / (l : ℚ) ≤ (⌈(c : ℚ) / (l : ℚ)⌉₊ : ℚ) := Nat.le_ceil _
      rw [div_le_iff₀ hl0] at h2
      have h2' : c ≤ ⌈(c : ℚ) / (l : ℚ)⌉₊ * l := by exact_mod_cast h2
      simpa [smul_eq_mul, Nat.mul_comm] using h2'
  rw [key, Nat.ceilDiv_eq_add_pred_div]

/-- C2 helper: with a positive limit, ceiling division is zero exactly on a
zero count. -/
theorem ceilDivNat_eq_zero_iff (c l : Nat) (hl : 1 ≤ l) :
    (c + l - 1) / l = 0 ↔ c = 0 := by
  rw [Nat.div_eq_zero_iff (by omega : 0 < l)]
  omega

/-- C2: For every `totalCount ≥ 0` and `limit ≥ 1`, `paginate` computes
`numberOfPages = ⌈totalCount / limit⌉` (expressed as the natural-number
ceiling division `(totalCount + limit - 1) / limit`), and `numberOfPages = 0`
iff `totalCount = 0`. -/
theorem paginate_numberOfPages_ceil (page limit countDocuments : Nat)
    (hl : 1 ≤ limit) :
    (paginateCore page limit countDocuments).numberOfPages
        = (countDocuments + limit - 1) / limit
      ∧ ((paginateCore page limit countDocuments).numberOfPages = 0
        ↔ countDocuments = 0) := by
  constructor
  · exact ceil_div_eq_ceilDiv countDocuments limit hl
  · rw [paginateCore, ceil_div_eq_ceilDiv countDocuments limit hl]
    exact ceilDivNat_eq_zero_iff countDocuments limit hl

/-- Witness for C2 at `page = 3`, `limit = 2`, `totalCount = 5`. -/
theorem paginate_numberOfPages_ceil_witness :
    (paginateCore 3 2 5).numberOfPages = (5 + 2 - 1) / 2
      ∧ ((paginateCore 3 2 5).numberOfPages = 0 ↔ 5 = 0) :=
  paginate_numberOfPages_ceil 3 2 5 (by decide)

/-- C3: For every raw `page`/`limit` parameter and every `totalCount`, the
result of `paginate` contains `nextPage = page + 1` exactly when
`page * limit < totalCount`, and contains `previousPage = page - 1` exactly
when `page > 1` (where `page`/`limit` are the coerced values that `paginate`
actually uses, which are always ≥ 1). -/
theorem paginate_nextPage_previousPage (rawPage rawLimit : Option Nat)
    (countDocuments : Nat) :
    (paginate rawPage rawLimit countDocuments).nextPage
        = (if (numOr rawPage 1) * (numOr rawLimit 25) < countDocuments
            then some (numOr rawPage 1 + 1) else none)
      ∧ (paginate rawPage rawLimit countDocuments).previousPage
        = (if 1 < numOr rawPage 1 then some (numOr rawPage 1 - 1) else none) := by
  have hp : 1 ≤ numOr rawPage 1 := numOr_pos rawPage 1 le_rfl
  have hlim : 1 ≤ numOr rawLimit 25 := numOr_pos rawLimit 25 (by omega)
  set p := numOr rawPage 1 with hpdef
  set l := numOr rawLimit 25 with hldef
  constructor
  · show (if ((p : Int)) * (l : Int) < (countDocuments : Int)
        then some (p + 1) else none) = _
    have : ((p : Int)) * (l : Int) < (countDocuments : Int) ↔ p * l < countDocuments := by
      exact_mod_cast Iff.rfl
    simp only [this]
  · show (if (0 : Int) < ((p : Int) - 1) * (l : Int)
        then some (p - 1) else none) = _
    have : (0 : Int) < ((p : Int) - 1) * (l : Int) ↔ 1 < p := by
      constructor
      · intro h
        by_contra hle
        have hp1 : p = 1 := by omega
        rw [hp1] at h
        simp at h
      · intro h
        have h1 : (0 : Int) < (p : Int) - 1 := by
          have : (1 : Int) < (p : Int) := by exact_mod_cast h
          omega
        have h2 : (0 : Int) < (l : Int) := by exact_mod_cast hlim
        exact mul_pos h1 h2
    simp only [this]

/-! ## Query-string objects and `ApiFeatures.filter`
(src/utils/ApiFeatures.js lines 10-27)

`qs.parse(queryString, { depth: 1 })` yields an object whose values are
strings or one-level string maps (nested bracket syntax such as
`price[gte]=10`).  We model such an object as an association list. -/

/-- A value in a `qs`-parsed (depth 1) query object: a plain string or a
one-level map of strings. -/
inductive QVal where
  | str : String → QVal
  | obj : List (String × String) → QVal
  deriving Repr, DecidableEq

/-- A `qs`-parsed query object. -/
abbrev QObj := List (String × QVal)

/-- The reserved keys deleted by `ApiFeatures.filter` before the remainder is
used as a Mongo filter. -/
def excludeFields : List String := ["page", "sort", "limit", "fields", "keyword"]

/-- Model of `excludeFields.forEach((field) => delete queryStringObj[field])`. -/
def stripReserved (q : QObj) : QObj :=
  q.filter (fun kv => !(excludeFields.contains kv.1))

/-! ### The word-boundary operator rewrite

The source serializes the stripped object with `JSON.stringify` and applies
`queryStr.replace(/\b(gt|gte|lt|lte|in)\b/g, (m) => "$" + m)`, then parses the
result back with `JSON.parse`.  A `\b`-delimited match of one of the five
alternatives is exactly a maximal run of word characters (`[A-Za-z0-9_]`)
equal to that alternative (an occurrence inside a longer word run has no
boundary next to it; for a run `gte`, the alternative `gt` fails the trailing
`\b`, so `gte` matches).  `replaceOpsL` implements this: it splits a character
list into maximal word runs and prefixes `'$'` to every run equal to one of
the five operator tokens. -/

/-- JavaScript regex word character (`\w`, ASCII only). -/
def isWordChar (c : Char) : Bool := c.isAlphanum || c = '_'

/-- The operator alternatives of the replacement regex. -/
def opTokens : List (List Char) :=
  [['g', 't'], ['g', 't', 'e'], ['l', 't'], ['l', 't', 'e'], ['i', 'n']]

/-- Replacement applied to one maximal word run. -/
def replaceTok (w : List Char) : List Char :=
  if w ∈ opTokens then '$' :: w else w

/-- Emit the pending (reversed) word run `acc`, then `rest`. -/
def flushRun (acc rest : List Char) : List Char :=
  if acc = [] then rest else replaceTok acc.reverse ++ rest

/-- Scan the characters, accumulating the current word run in `acc`
(reversed); at every non-word character or at the end, the finished run is
passed through `replaceTok`. -/
def replaceOpsAux : List Char → List Char → List Char
  | [], acc => flushRun acc []
  | c :: cs, acc =>
      if isWordChar c then replaceOpsAux cs (c :: acc)
      else flushRun acc (c :: replaceOpsAux cs [])

/-- The global word-boundary replacement on a character list. -/
def replaceOpsL (s : List Char) : List Char := replaceOpsAux s []

/-- The global word-boundary replacement on a string. -/
def replaceOps (s : String) : String := ⟨replaceOpsL s.data⟩

/-- The replacement applied to a parsed value: every string in the JSON
serialization lies between quotes (non-word characters), so the global
replacement acts independently on every key and every string value. -/
def replaceOpsVal : QVal → QVal
  | .str s => .str (replaceOps s)
  | .obj l => .obj (l.map fun kv => (replaceOps kv.1, replaceOps kv.2))

/-- Model of `ApiFeatures.filter`'s query-object transformation: strip the reserved
keys, then apply the `$`-operator rewrite (the composite
`JSON.parse(JSON.stringify(obj).replace(...))` of the source; see
`replaceOps_stringify_agree` for the correspondence with the serialized
form). -/
def filterQuery (q : QObj) : QObj :=
  (stripReserved q).map (fun kv => (replaceOps kv.1, replaceOpsVal kv.2))

/-! ### `JSON.stringify` of a query object (no indentation), at the character
level, and the proof that the word-boundary replacement on the serialization
acts exactly on the keys and string values. -/

/-- Quote a serialized string. -/
def quoteL (s : List Char) : List Char := '"' :: (s ++ ['"'])

/-- Comma-separated serialization of a list of already-serialized members. -/
def entriesL (f : α → List Char) : List α → List Char
  | [] => []
  | [x] => f x
  | x :: y :: rest => f x ++ ',' :: entriesL f (y :: rest)

/-- One `"key":"value"` member of a nested (depth-1) object. -/
def pairL (kv : String × String) : List Char :=
  quoteL kv.1.data ++ ':' :: quoteL kv.2.data

/-- Serialization of a value. -/
def stringifyValL : QVal → List Char
  | .str s => quoteL s.data
  | .obj l => '\x7b' :: (entriesL pairL l ++ ['\x7d'])

/-- One `"key":value` member of the top-level object. -/
def entryL (kv : String × QVal) : List Char :=
  quoteL kv.1.data ++ ':' :: stringifyValL kv.2

/-- Serialization (`JSON.stringify`, no spacing) of a query object. -/
def stringifyObjL (q : QObj) : List Char := '\x7b' :: (entriesL entryL q ++ ['\x7d'])

theorem replaceOpsAux_nil (acc : List Char) :
    replaceOpsAux [] acc = flushRun acc [] := rfl

theorem replaceOpsAux_cons (c : Char) (cs acc : List Char) :
    replaceOpsAux (c :: cs) acc
      = if isWordChar c then replaceOpsAux cs (c :: acc)
        else flushRun acc (c :: replaceOpsAux cs []) := rfl

theorem flushRun_cons (acc : List Char) (x : Char) (t : List Char) :
    flushRun acc (x :: t) = flushRun acc [] ++ x :: t := by
  unfold flushRun
  split <;> simp

theorem replaceOpsAux_append_nonword (c : Char) (hc : isWordChar c = false) :
    ∀ (xs ys acc : List Char),
      replaceOpsAux (xs ++ c :: ys) acc
        = replaceOpsAux xs acc ++ c :: replaceOpsAux ys [] := by
  intro xs
  induction xs with
  | nil =>
      intro ys acc
      simp [replaceOpsAux_cons, replaceOpsAux_nil, hc, flushRun_cons]
  | cons a xs ih =>
      intro ys acc
      rw [List.cons_append, replaceOpsAux_cons, replaceOpsAux_cons a xs acc]
      by_cases ha : isWordChar a = true
      · simp only [ha, if_true]
        exact ih ys (a :: acc)
      · have ha' : isWordChar a = false := by
          rw [Bool.not_eq_true] at ha; exact ha
        simp only [ha', Bool.false_eq_true, if_false]
        rw [ih ys [], flushRun_cons, flushRun_cons acc a (replaceOpsAux xs [])]
        simp [List.append_assoc]

theorem replaceOpsL_cons_nonword (c : Char) (hc : isWordChar c = false)
    (ys : List Char) :
    replaceOpsL (c :: ys) = c :: replaceOpsL ys := by
  have h := replaceOpsAux_append_nonword c hc [] ys []
  simpa [replaceOpsL, replaceOpsAux, flushRun] using h

theorem replaceOpsL_append_nonword (c : Char) (hc : isWordChar c = false)
    (xs ys : List Char) :
    replaceOpsL (xs ++ c :: ys) = replaceOpsL xs ++ c :: replaceOpsL ys :=
  replaceOpsAux_append_nonword c hc xs ys []

theorem isWordChar_quote : isWordChar '"' = false := by decide
theorem isWordChar_colon : isWordChar ':' = false := by decide
theorem isWordChar_comma : isWordChar ',' = false := by decide
theorem isWordChar_lbrace : isWordChar '\x7b' = false := by decide
theorem isWordChar_rbrace : isWordChar '\x7d' = false := by decide

/-- The replacement on a quoted string rewrites exactly the string's content. -/
theorem replaceOpsL_quote (s rest : List Char) :
    replaceOpsL (quoteL s ++ rest)
      = quoteL (replaceOpsL s) ++ replaceOpsL rest := by
  show replaceOpsL ('"' :: ((s ++ ['"']) ++ rest)) = _
  rw [List.append_assoc]
  simp only [List.singleton_append]
  rw [replaceOpsL_cons_nonword '"' isWordChar_quote,
    replaceOpsL_append_nonword '"' isWordChar_quote]
  simp [quoteL, List.append_assoc]

/-- Splitting lemma for comma-separated member lists: if the replacement
splits across every member, it splits across the whole serialized list
followed by any non-word character. -/
theorem replaceOpsL_entriesL {α : Type} (f g : α → List Char)
    (h : ∀ (x : α) (rest : List Char),
      replaceOpsL (f x ++ rest) = g x ++ replaceOpsL rest)
    (l : List α) (c : Char) (hc : isWordChar c = false) (rest : List Char) :
    replaceOpsL (entriesL f l ++ c :: rest)
      = entriesL g l ++ c :: replaceOpsL rest := by
  induction l with
  | nil =>
      simp [entriesL, replaceOpsL_cons_nonword c hc]
  | cons x t ih =>
      cases t with
      | nil =>
          simp only [entriesL]
          rw [h x (c :: rest), replaceOpsL_cons_nonword c hc]
      | cons y t' =>
          simp only [entriesL]
          rw [List.append_assoc, List.cons_append, h x,
            replaceOpsL_cons_nonword ',' isWordChar_comma, ih]
          simp [List.append_assoc]

theorem replaceOpsL_pairL (kv : String × String) (rest : List Char) :
    replaceOpsL (pairL kv ++ rest)
      = pairL (replaceOps kv.1, replaceOps kv.2) ++ replaceOpsL rest := by
  show replaceOpsL ((quoteL kv.1.data ++ ':' :: quoteL kv.2.data) ++ rest) = _
  rw [List.append_assoc, List.cons_append, replaceOpsL_quote,
    replaceOpsL_cons_nonword ':' isWordChar_colon, replaceOpsL_quote]
  simp [pairL, replaceOps, List.append_assoc]

/-- Serializing a mapped member list is serializing with the composed
member serializer. -/
theorem entriesL_map {α β : Type} (f : β → List Char) (g : α → β) :
    ∀ l : List α, entriesL f (l.map g) = entriesL (fun x => f (g x)) l := by
  intro l
  induction l with
  | nil => rfl
  | cons x t ih =>
      cases t with
      | nil => rfl
      | cons y t' =>
          show f (g x) ++ ',' :: entriesL f (List.map g (y :: t'))
            = f (g x) ++ ',' :: entriesL (fun x => f (g x)) (y :: t')
          rw [ih]

theorem replaceOpsL_entryL (kv : String × QVal) (rest : List Char) :
    replaceOpsL (entryL kv ++ rest)
      = entryL (replaceOps kv.1, replaceOpsVal kv.2) ++ replaceOpsL rest := by
  show replaceOpsL ((quoteL kv.1.data ++ ':' :: stringifyValL kv.2) ++ rest) = _
  rw [List.append_assoc, List.cons_append, replaceOpsL_quote,
    replaceOpsL_cons_nonword ':' isWordChar_colon]
  cases hv : kv.2 with
  | str s =>
      rw [show stringifyValL (QVal.str s) = quoteL s.data from rfl,
        replaceOpsL_quote]
      simp [entryL, replaceOpsVal, stringifyValL, replaceOps, List.append_assoc]
  | obj l =>
      rw [show stringifyValL (QVal.obj l)
          = '\x7b' :: (entriesL pairL l ++ ['\x7d']) from rfl]
      rw [List.cons_append, replaceOpsL_cons_nonword '\x7b' isWordChar_lbrace,
        List.append_assoc, List.singleton_append]
      rw [replaceOpsL_entriesL pairL
        (fun kv => pairL (replaceOps kv.1, replaceOps kv.2))
        (fun kv r => replaceOpsL_pairL kv r) l '\x7d' isWordChar_rbrace rest]
      simp [entryL, replaceOpsVal, stringifyValL, replaceOps, entriesL_map,
        List.append_assoc, Function.comp]

/-- Embedding soundness for `ApiFeatures.filter`: applying the source's
global word-boundary regex replacement to the `JSON.stringify` serialization
of a (stripped) query object yields exactly the serialization of
`filterQuery`'s structural rewrite.  (So, since `JSON.parse` inverts
`JSON.stringify`, the object the source passes to `find` is `filterQuery q`.) -/
theorem replaceOps_stringify_agree (q : QObj) :
    replaceOpsL (stringifyObjL (stripReserved q))
      = stringifyObjL (filterQuery q) := by
  show replaceOpsL ('\x7b' :: (entriesL entryL (stripReserved q) ++ ['\x7d'])) = _
  rw [replaceOpsL_cons_nonword '\x7b' isWordChar_lbrace]
  rw [replaceOpsL_entriesL entryL
    (fun kv => entryL (replaceOps kv.1, replaceOpsVal kv.2))
    (fun kv r => replaceOpsL_entryL kv r) (stripReserved q) '\x7d'
    isWordChar_rbrace []]
  simp [stringifyObjL, filterQuery, replaceOpsL, replaceOpsAux_nil, flushRun,
    entriesL_map, Function.comp]

/-- Lemma: `flushRun` either re-attaches the pending run unchanged or inserts a
`'$'`. -/
theorem flushRun_id_or_dollar (acc rest : List Char) :
    flushRun acc rest = acc.reverse ++ rest ∨ '$' ∈ flushRun acc rest := by
  unfold flushRun replaceTok
  by_cases ha : acc = []
  · subst ha; left; simp
  · simp only [ha, if_false]
    by_cases ht : acc.reverse ∈ opTokens
    · right; simp [ht]
    · left; simp [ht]

theorem replaceOpsAux_id_or_dollar :
    ∀ (cs acc : List Char),
      replaceOpsAux cs acc = acc.reverse ++ cs ∨ '$' ∈ replaceOpsAux cs acc := by
  intro cs
  induction cs with
  | nil =>
      intro acc
      rw [replaceOpsAux_nil]
      simpa using flushRun_id_or_dollar acc []
  | cons c cs ih =>
      intro acc
      rw [replaceOpsAux_cons]
      by_cases hw : isWordChar c = true
      · simp only [hw, if_true]
        rcases ih (c :: acc) with h | h
        · left; rw [h]; simp
        · right; exact h
      · have hw' : isWordChar c = false := by
          rw [Bool.not_eq_true] at hw; exact hw
        simp only [hw', Bool.false_eq_true, if_false]
        rcases flushRun_id_or_dollar acc (c :: replaceOpsAux cs []) with h | h
        · rcases ih [] with h2 | h2
          · left
            rw [h, h2]
            simp
          · right
            rw [h]
            simp [h2]
        · right; exact h

theorem replaceOps_id_or_dollar (s : String) :
    replaceOps s = s ∨ '$' ∈ (replaceOps s).data := by
  rcases replaceOpsAux_id_or_dollar s.data [] with h | h
  · left
    show (⟨replaceOpsL s.data⟩ : String) = s
    rw [replaceOpsL, h]
    simp
  · right
    exact h

/-! ## C5 / C10: properties of `ApiFeatures.filter` -/

/-- C5: the filters built by `ApiFeatures.filter` never contain any of the
five reserved keys `page`, `sort`, `limit`, `fields`, `keyword`: they are
deleted before the remainder is used as a filter (and the `$`-rewrite cannot
reintroduce them, since it only ever inserts a `'$'`); and the example
parameters `{page, limit, sort, fields, keyword, category}` yield filters
containing only `{category: "photography"}`. -/
theorem filterQuery_excludes_reserved :
    (∀ (q : QObj) (p : String × QVal), p ∈ filterQuery q → p.1 ∉ excludeFields)
      ∧ filterQuery
          [("page", QVal.str "2"), ("limit", QVal.str "10"),
           ("sort", QVal.str "-createdAt"), ("fields", QVal.str "title"),
           ("keyword", QVal.str "x"), ("category", QVal.str "photography")]
        = [("category", QVal.str "photography")] := by
  constructor
  · intro q p hp hmem
    rcases List.mem_map.1 hp with ⟨kv, hkv, heq⟩
    have hc : (!excludeFields.contains kv.1) = true := (List.mem_filter.1 hkv).2
    rw [Bool.not_eq_true'] at hc
    have hkey : p.1 = replaceOps kv.1 := by rw [← heq]
    rcases replaceOps_id_or_dollar kv.1 with hid | hd
    · have hm : kv.1 ∈ excludeFields := by rw [← hid, ← hkey]; exact hmem
      have ht : excludeFields.contains kv.1 = true := List.elem_eq_true_of_mem hm
      rw [ht] at hc
      cases hc
    · rw [← hkey] at hd
      simp only [excludeFields, List.mem_cons, List.not_mem_nil, or_false] at hmem
      rcases hmem with h | h | h | h | h <;> (rw [h] at hd; revert hd; decide)
  · decide

/-- Witness for C5 (the example from the spec): `category` survives the
stripping, and `"category"` is not reserved. -/
theorem filterQuery_excludes_reserved_witness :
    ("category" : String) ∉ excludeFields :=
  filterQuery_excludes_reserved.1
    [("page", QVal.str "2"), ("limit", QVal.str "10"),
     ("sort", QVal.str "-createdAt"), ("fields", QVal.str "title"),
     ("keyword", QVal.str "x"), ("category", QVal.str "photography")]
    ("category", QVal.str "photography") (by decide)

/-- C10: the `$`-rewrite is a word-boundary replacement over the whole JSON
serialization, so a whole-word `in` (or `gt`, `gte`, `lt`, `lte`) occurring
as an equality *value* is also rewritten: `{status: "in"}` becomes
`{status: "$in"}`, not an equality match on the literal string `"in"`.
Occurrences inside longer words are untouched, free-standing whole words in
longer strings are rewritten, and the structural rewrite agrees with the
regex-over-serialization description. -/
theorem filterQuery_rewrites_values :
    filterQuery [("status", QVal.str "in")] = [("status", QVal.str "$in")]
      ∧ replaceOpsL (stringifyObjL (stripReserved [("status", QVal.str "in")]))
        = stringifyObjL [("status", QVal.str "$in")]
      ∧ replaceOps "price in range" = "price $in range"
      ∧ replaceOps "integer" = "integer" := by
  refine ⟨by decide, ?_, by decide, by decide⟩
  rw [replaceOps_stringify_agree]
  decide

/-! ## Document matching semantics

To state the selection examples (C6) and the count-discipline claim (C1) we
interpret the produced Mongo filter documents over a concrete document type
covering the schema fields that the claims touch.  Mongoose casts query
literals to the schema type of the path (so `price[gte]=10` compares
numerically); a path outside the model's schema matches no document here, and
`$in` with a non-array operand is a cast error, modelled as matching
nothing. -/

/-- A stored document, with the fields used by the listing/search claims.
Unused fields default so fixtures can set only what they need. -/
structure Doc where
  name : String := ""
  title : String := ""
  description : String := ""
  category : String := ""
  status : String := ""
  key : String := ""
  firstName : String := ""
  lastName : String := ""
  email : String := ""
  fileType : String := ""
  type : String := ""
  locationCity : String := ""
  tags : List String := []
  price : Int := 0
  createdAt : Int := 0
  budgetMin : Int := 0
  budgetMax : Int := 0
  deriving Repr, DecidableEq

/-- A field value: string, number, or array of strings. -/
inductive FV where
  | str : String → FV
  | int : Int → FV
  | strs : List String → FV
  deriving Repr, DecidableEq

/-- Schema lookup of a field on a document. -/
def getField (d : Doc) : String → Option FV
  | "name" => some (.str d.name)
  | "title" => some (.str d.title)
  | "description" => some (.str d.description)
  | "category" => some (.str d.category)
  | "status" => some (.str d.status)
  | "key" => some (.str d.key)
  | "firstName" => some (.str d.firstName)
  | "lastName" => some (.str d.lastName)
  | "email" => some (.str d.email)
  | "fileType" => some (.str d.fileType)
  | "tags" => some (.strs d.tags)
  | "price" => some (.int d.price)
  | "createdAt" => some (.int d.createdAt)
  | _ => none

/-- Parse a decimal natural from characters (kernel-reducible replacement for
`String.toNat?`). -/
def parseNatL : List Char → Nat → Option Nat
  | [], acc => some acc
  | c :: cs, acc =>
      if c.isDigit then parseNatL cs (acc * 10 + (c.toNat - 48)) else none

/-- Parse an optionally-signed decimal integer (the numeric cast mongoose
applies to a query literal against a number path). -/
def parseIntL (s : String) : Option Int :=
  match s.data with
  | [] => none
  | '-' :: cs =>
      match cs with
      | [] => none
      | _ => (parseNatL cs 0).map (fun n => -(n : Int))
  | cs => (parseNatL cs 0).map (fun n => (n : Int))

/-- Equality match of a cast query literal against a field value (Mongo
equality on an array field matches any element). -/
def evalEq (fv : FV) (v : String) : Bool :=
  match fv with
  | .str s => decide (s = v)
  | .int n => match parseIntL v with
      | some m => decide (m = n)
      | none => false
  | .strs l => l.any (fun s => decide (s = v))

/-- Does the string start with `'$'`? (Kernel-reducible replacement for
`String.startsWith "$"`.) -/
def startsDollar (s : String) : Bool :=
  match s.data with
  | c :: _ => decide (c = '$')
  | [] => false

/-- One comparison operator applied to a field value and a (cast) query
literal: `fv op v`. -/
def evalCmp (fv : FV) (op : String) (v : String) : Bool :=
  match fv with
  | .int n => match parseIntL v with
      | some m =>
          if op = "$gt" then decide (m < n)
          else if op = "$gte" then decide (m ≤ n)
          else if op = "$lt" then decide (n < m)
          else if op = "$lte" then decide (n ≤ m)
          else false
      | none => false
  | .str s =>
      if op = "$gt" then decide (v < s)
      else if op = "$gte" then decide (v ≤ s)
      else if op = "$lt" then decide (s < v)
      else if op = "$lte" then decide (s ≤ v)
      else false
  | .strs _ => false

/-- A nested (depth-1) query value against a field.  If its keys are
`$`-operators they are conjoined (`$in` with a string operand is a mongoose
cast error, modelled as matching nothing); otherwise the nested object is an
embedded-document equality, which never matches our flat documents. -/
def evalNested (fv : FV) (ops : List (String × String)) : Bool :=
  if ops.all (fun op => startsDollar op.1) then
    ops.all (fun op => if op.1 = "$in" then false else evalCmp fv op.1 op.2)
  else false

/-- One top-level `field: value` pair of a Mongo filter document. -/
def evalPair (d : Doc) (kv : String × QVal) : Bool :=
  match getField d kv.1 with
  | none => false
  | some fv =>
      match kv.2 with
      | .str v => evalEq fv v
      | .obj ops => evalNested fv ops

/-- A whole Mongo filter document (conjunction of its pairs). -/
def matchesObj (o : QObj) (d : Doc) : Bool := o.all (evalPair d)

/-- Fixture: a document carrying only a price. -/
def priceDoc (p : Int) : Doc := { price := p }

/-- C6: each nested operator token among `gt`, `gte`, `lt`, `lte`, `in` is
translated to the `$`-prefixed Mongo operator, and the translated
`price[gte]=10&price[lte]=50` filter selects exactly the records priced
10, 30, 50 from the fixture {5, 10, 30, 50, 60}. -/
theorem filterQuery_operator_translation :
    filterQuery
        [("price", QVal.obj
          [("gt", "1"), ("gte", "2"), ("lt", "3"), ("lte", "4"), ("in", "5")])]
      = [("price", QVal.obj
          [("$gt", "1"), ("$gte", "2"), ("$lt", "3"), ("$lte", "4"),
           ("$in", "5")])]
      ∧ ([priceDoc 5, priceDoc 10, priceDoc 30, priceDoc 50,
          priceDoc 60].filter
          (matchesObj (filterQuery
            [("price", QVal.obj [("gte", "10"), ("lte", "50")])]))
        = [priceDoc 10, priceDoc 30, priceDoc 50]) := by
  constructor
  · decide
  · decide

/-! ## The mongoose query builder and the `ApiFeatures` chain

A mongoose query is a *description* accumulated by method calls —
`find(conditions)` merges more conditions (a conjunction), while
`collation`, `sort`, `select`, `skip` and `limit` each set one component —
and the store then executes the final description as: match all conditions,
sort, skip, limit (projection only shapes the returned fields).  `MQuery`
records that description; `conds` keeps the merged conjuncts in merge
order. -/

/-- Case-insensitive substring test, modelling `$regex` with option `"i"` on
a literal (non-metacharacter) pattern. -/
def isPrefL : List Char → List Char → Bool
  | [], _ => true
  | _ :: _, [] => false
  | a :: as, b :: bs => decide (a = b) && isPrefL as bs

def isInfL (n : List Char) : List Char → Bool
  | [] => n.isEmpty
  | c :: cs => isPrefL n (c :: cs) || isInfL n cs

def lowerL (cs : List Char) : List Char := cs.map Char.toLower

def containsCI (hay kw : String) : Bool := isInfL (lowerL kw.data) (lowerL hay.data)

/-- `{ field: { $regex: kw, $options: "i" } }` on one field value: strings
match by case-insensitive substring, an array matches if some element does,
numbers never match a regex. -/
def regexMatch (fv : FV) (kw : String) : Bool :=
  match fv with
  | .str s => containsCI s kw
  | .strs l => l.any (fun s => containsCI s kw)
  | .int _ => false

/-- One accumulated `find` condition: a Mongo filter document, or the
`$or`-of-regexes document built by the keyword search. -/
inductive Cond where
  | filt : QObj → Cond
  | regexOr : List String → String → Cond
  | inList : String → List String → Cond
  deriving Repr, DecidableEq

def evalCond (c : Cond) (d : Doc) : Bool :=
  match c with
  | .filt o => matchesObj o d
  | .regexOr fields kw =>
      fields.any (fun f =>
        match getField d f with
        | some fv => regexMatch fv kw
        | none => false)
  | .inList f vals =>
      match getField d f with
      | some fv => vals.any (fun v => evalEq fv v)
      | none => false

/-- The accumulated mongoose query description. -/
structure MQuery where
  conds : List Cond := []
  collation : Bool := false
  sortTokens : Option (List String) := none
  selectTokens : Option (List String) := none
  skipN : Nat := 0
  limitN : Option Nat := none
  deriving Repr, DecidableEq

/-- Split a character list at a separator (kernel-reducible replacement for
`String.split`); always returns at least one (possibly empty) piece. -/
def splitCharL (sep : Char) : List Char → List (List Char)
  | [] => [[]]
  | c :: cs =>
      match splitCharL sep cs with
      | [] => [[]]
      | r :: rs => if c = sep then [] :: r :: rs else (c :: r) :: rs

/-- `s.split(",")`; the source then re-joins with spaces for mongoose, which
re-splits on spaces, so the tokens are what matters. -/
def splitComma (s : String) : List String :=
  (splitCharL ',' s.data).map (fun cs => ⟨cs⟩)

/-- The `ApiFeatures` object: the query being built plus the raw parsed
query string (and, after `paginate`, the pagination results). -/
structure ApiFeatures where
  mongooseQuery : MQuery
  queryString : QObj
  paginationResults : Option PaginationResults := none
  deriving Repr, DecidableEq

/-- Property access `queryString[k]` (first binding; `qs` merges duplicate
keys before this point). -/
def qget (q : QObj) (k : String) : Option QVal :=
  (q.find? (fun kv => decide (kv.1 = k))).map (·.2)

/-- A scalar parameter access guarded by JavaScript truthiness: present and
non-empty.  (A nested-object value for one of these scalar parameters is out
of the model's scope and treated as absent.) -/
def qgetTruthyStr (q : QObj) (k : String) : Option String :=
  match qget q k with
  | some (.str s) => if s = "" then none else some s
  | _ => none

/-- `Number(queryString[k])` restricted to natural-number numerals; any
other value is `none` (`NaN`), which the `|| default` coercion replaces. -/
def qgetNat (q : QObj) (k : String) : Option Nat :=
  match qget q k with
  | some (.str s) => parseNatL s.data 0
  | _ => none

/-- `ApiFeatures.search(modelName)` (source lines 56-76): when `keyword` is
truthy, add an `$or` of case-insensitive regexes whose fields the method
itself picks from the model name: `title`/`description` for `"Product"`,
`name` otherwise. -/
def searchFieldsFor (modelName : String) : List String :=
  if modelName = "Product" then ["title", "description"] else ["name"]

def ApiFeatures.search (af : ApiFeatures) (modelName : String) : ApiFeatures :=
  match qgetTruthyStr af.queryString "keyword" with
  | some kw =>
      { af with mongooseQuery :=
          { af.mongooseQuery with
            conds := af.mongooseQuery.conds
              ++ [Cond.regexOr (searchFieldsFor modelName) kw] } }
  | none => af

/-- `ApiFeatures.limitFields()` (lines 45-54). -/
def ApiFeatures.limitFields (af : ApiFeatures) : ApiFeatures :=
  match qgetTruthyStr af.queryString "fields" with
  | some f =>
      { af with mongooseQuery :=
          { af.mongooseQuery with selectTokens := some (splitComma f) } }
  | none =>
      { af with mongooseQuery :=
          { af.mongooseQuery with selectTokens := some ["-__v"] } }

/-- `ApiFeatures.filter()` (lines 10-27): add the rewritten query object as a
further `find` condition. -/
def ApiFeatures.filter (af : ApiFeatures) : ApiFeatures :=
  { af with mongooseQuery :=
      { af.mongooseQuery with
        conds := af.mongooseQuery.conds
          ++ [Cond.filt (filterQuery af.queryString)] } }

/-- `ApiFeatures.sort()` (lines 29-43): case-insensitive collation, with the
requested keys or the `-createdAt` default. -/
def ApiFeatures.sort (af : ApiFeatures) : ApiFeatures :=
  match qgetTruthyStr af.queryString "sort" with
  | some s =>
      { af with mongooseQuery :=
          { af.mongooseQuery with
            collation := true
            sortTokens := some (splitComma s) } }
  | none =>
      { af with mongooseQuery :=
          { af.mongooseQuery with
            collation := true
            sortTokens := some ["-createdAt"] } }

/-- `ApiFeatures.paginate(countDocuments)` (lines 78-102). -/
def ApiFeatures.paginate (af : ApiFeatures) (cnt : Nat) : ApiFeatures :=
  let page := numOr (qgetNat af.queryString "page") 1
  let limit := numOr (qgetNat af.queryString "limit") 25
  { af with
    paginationResults := some (paginateCore page limit cnt)
    mongooseQuery :=
      { af.mongooseQuery with
        skipN := (page - 1) * limit
        limitN := some limit } }

/-! ### Store-side execution of a built query -/

def cmpCharList : List Char → List Char → Ordering
  | [], [] => .eq
  | [], _ :: _ => .lt
  | _ :: _, [] => .gt
  | a :: as, b :: bs =>
      match compare a b with
      | .eq => cmpCharList as bs
      | o => o

def fvRank : FV → Nat
  | .int _ => 0
  | .str _ => 1
  | .strs _ => 2

/-- Compare two field values; with strength-2 collation, strings compare
case-insensitively.  Values of different kinds order by BSON type rank. -/
def cmpFV (collation : Bool) (a b : FV) : Ordering :=
  match a, b with
  | .int x, .int y => compare x y
  | .str x, .str y =>
      if collation then cmpCharList (lowerL x.data) (lowerL y.data)
      else cmpCharList x.data y.data
  | _, _ => compare (fvRank a) (fvRank b)

/-- A sort token: `-field` is descending. -/
def parseSortTok (t : String) : Option (String × Bool) :=
  match t.data with
  | [] => none
  | '-' :: rest => some (⟨rest⟩, false)
  | _ => some (t, true)

def parseSortToks (ts : List String) : List (String × Bool) :=
  ts.filterMap parseSortTok

/-- Lexicographic document comparison along the sort keys; a missing field
sorts before a present one. -/
def cmpByKeys (collation : Bool) : List (String × Bool) → Doc → Doc → Ordering
  | [], _, _ => .eq
  | (f, asc) :: rest, a, b =>
      let o :=
        match getField a f, getField b f with
        | some x, some y => cmpFV collation x y
        | none, none => .eq
        | none, some _ => .lt
        | some _, none => .gt
      match if asc then o else o.swap with
      | .eq => cmpByKeys collation rest a b
      | o2 => o2

def docLe (collation : Bool) (keys : List (String × Bool)) (a b : Doc) : Bool :=
  match cmpByKeys collation keys a b with
  | .gt => false
  | _ => true

def insertLe {α : Type} (le : α → α → Bool) (x : α) : List α → List α
  | [] => [x]
  | y :: ys => if le x y then x :: y :: ys else y :: insertLe le x ys

/-- Insertion sort (the store's tie order is unspecified; every theorem uses
this one model on both sides). -/
def sortWith {α : Type} (le : α → α → Bool) (l : List α) : List α :=
  l.foldr (insertLe le) []

def sortDocs (collation : Bool) (sortToks : Option (List String))
    (docs : List Doc) : List Doc :=
  match sortToks with
  | none => docs
  | some ts => sortWith (docLe collation (parseSortToks ts)) docs

/-- Execute a built query against the collection: match every accumulated
condition, sort, skip, limit.  (Projection shapes fields only; the model
returns whole documents.) -/
def runQuery (mq : MQuery) (docs : List Doc) : List Doc :=
  let matched := docs.filter (fun d => mq.conds.all (fun c => evalCond c d))
  let sorted := sortDocs mq.collation mq.sortTokens matched
  let skipped := sorted.drop mq.skipN
  match mq.limitN with
  | some l => skipped.take l
  | none => skipped

/-! ## The generic `getAll` (dashboardController factory, lines 91-118) -/

/-- `Model.countDocuments()` — a count with **no** predicate. -/
def countAll (docs : List Doc) : Nat := docs.length

/-- `Model.countDocuments(pred)` — a count of the matching set. -/
def countWhere (p : Doc → Bool) (docs : List Doc) : Nat := (docs.filter p).length

/-- The `ApiFeatures` chain exactly as `getAll` writes it:
`new ApiFeatures(Model.find(filterObj), req.query)
  .search(Model.modelName).limitFields().filter().sort().paginate(count)`. -/
def getAllFeature (modelName : String) (filterObj : QObj) (query : QObj)
    (cnt : Nat) : ApiFeatures :=
  ((((ApiFeatures.mk { conds := [Cond.filt filterObj] } query none).search
    modelName).limitFields).filter).sort.paginate cnt

/-- The response envelope of a list operation. -/
structure ListResponse where
  results : Nat
  paginationResults : Option PaginationResults
  data : List Doc
  deriving Repr, DecidableEq

/-- `getAll`: count **all** documents (no predicate), build the chain with
that count, execute, respond. -/
def getAll (modelName : String) (filterObj : QObj) (query : QObj)
    (docs : List Doc) : ListResponse :=
  let cnt := countAll docs
  let apiFeature := getAllFeature modelName filterObj query cnt
  let documents := runQuery apiFeature.mongooseQuery docs
  { results := documents.length
    paginationResults := apiFeature.paginationResults
    data := documents }

/-- The chain in the order the specification asserts
(filter → search → sort → projection → pagination), for comparison. -/
def specOrderFeature (modelName : String) (filterObj : QObj) (query : QObj)
    (cnt : Nat) : ApiFeatures :=
  ((((ApiFeatures.mk { conds := [Cond.filt filterObj] } query
    none).filter).search modelName).sort.limitFields).paginate cnt

/-- C4 counterexample: the generic list operation does **not** apply its
steps in the order filter → search → sort → projection → pagination; the
source chain is `.search(...).limitFields().filter().sort().paginate(...)`,
and on a request with both a keyword and a filter parameter the two orders
build observably different query descriptions (the search condition is
merged before the filter condition). -/
theorem getAll_order_counterexample :
    (getAllFeature "Upload" []
        [("keyword", QVal.str "x"), ("category", QVal.str "photography")]
        0).mongooseQuery
      ≠ (specOrderFeature "Upload" []
        [("keyword", QVal.str "x"), ("category", QVal.str "photography")]
        0).mongooseQuery := by
  decide

/-- C4 amended: the chain applies its steps in the deterministic order
search → projection → filter → sort → pagination; since every step only adds
its own component to the accumulated query description, the executed query
still sorts and paginates the filtered-and-searched set and never the
reverse: running the built query equals filtering by the base filter, the
keyword search and the parameter filters, then sorting, then skipping and
limiting. -/
theorem getAll_sort_paginate_after_filter_search (modelName : String)
    (filterObj : QObj) (query : QObj) (docs : List Doc) (cnt : Nat) :
    runQuery ((getAllFeature modelName filterObj query cnt).mongooseQuery) docs
      = ((sortDocs true
            (some (match qgetTruthyStr query "sort" with
              | some s => splitComma s
              | none => ["-createdAt"]))
            (docs.filter (fun d =>
              matchesObj filterObj d
                && (match qgetTruthyStr query "keyword" with
                  | some kw =>
                      evalCond (Cond.regexOr (searchFieldsFor modelName) kw) d
                  | none => true)
                && matchesObj (filterQuery query) d))).drop
          ((numOr (qgetNat query "page") 1 - 1) * numOr (qgetNat query "limit") 25)).take
        (numOr (qgetNat query "limit") 25) := by
  cases hkw : qgetTruthyStr query "keyword" <;>
    cases hs : qgetTruthyStr query "sort" <;>
      cases hf : qgetTruthyStr query "fields" <;>
        simp [getAllFeature, ApiFeatures.search, ApiFeatures.limitFields,
          ApiFeatures.filter, ApiFeatures.sort, ApiFeatures.paginate, runQuery,
          hkw, hs, hf, evalCond, Bool.and_assoc, Bool.and_true,
          List.all_cons, List.all_nil]

/-! ## Resource-specific listing and search endpoints -/

/-- `String.prototype.trim` (kernel-reducible). -/
def trimL (s : String) : String :=
  ⟨((s.data.dropWhile Char.isWhitespace).reverse.dropWhile
      Char.isWhitespace).reverse⟩

/-- JavaScript truthiness of an optional string parameter: `""` is falsy. -/
def optTruthy (s : Option String) : Option String :=
  match s with
  | some "" => none
  | x => x

/-- `Math.ceil(total / limit)` as used in the resource-specific
`pages` computations. -/
def jsPages (total limit : Nat) : Nat := ⌈(total : ℚ) / (limit : ℚ)⌉₊

def isErr {α : Type} (e : Except String α) : Bool :=
  match e with
  | .error _ => true
  | .ok _ => false

/-! ### The factory search (`searchDocuments`, dashboardController lines
270-329)

`const { q, page = 1, limit = 10 } = req.query` — the destructuring defaults
apply only to *missing* parameters; the raw values are then used numerically
(modelled as already-parsed naturals; a supplied `page` of `0` would make the
store reject the negative skip, which is outside the claims).  The guard
`!q || q.trim() === ""` rejects a missing, empty or whitespace-only query
with a 400 before any store access; otherwise a find and a count run
(two store round trips). -/

structure SDOk where
  results : List Doc
  page : Nat
  limit : Nat
  total : Nat
  pages : Nat
  deriving Repr, DecidableEq

/-- The `status` base filter added when the model's schema has a `status`
path. -/
def sdStatusGuard (hasStatusPath : Bool) (d : Doc) : Bool :=
  if hasStatusPath then
    evalCond (Cond.inList "status" ["approved", "active", "published"]) d
  else true

def searchDocuments (searchFields : List String) (hasStatusPath : Bool)
    (q? : Option String) (rawPage rawLimit : Option Nat) (docs : List Doc) :
    Except String SDOk × Nat :=
  match q? with
  | none => (.error "Search query is required", 0)
  | some q =>
      if q = "" || trimL q = "" then (.error "Search query is required", 0)
      else
        let page := rawPage.getD 1
        let limit := rawLimit.getD 10
        let pred := fun d =>
          evalCond (Cond.regexOr searchFields q) d && sdStatusGuard hasStatusPath d
        let matched := docs.filter pred
        let sorted := sortWith (docLe false [("createdAt", false)]) matched
        (.ok { results := (sorted.drop ((page - 1) * limit)).take limit
               page := page
               limit := limit
               total := matched.length
               pages := jsPages matched.length limit }, 2)

/-- `factory.searchDocuments(Upload, ["title", "description", "tags"], …)`
(uploadController line 319); the Upload schema has a `status` path. -/
def searchUploadsFactory (q? : Option String) (rawPage rawLimit : Option Nat)
    (docs : List Doc) : Except String SDOk × Nat :=
  searchDocuments ["title", "description", "tags"] true q? rawPage rawLimit docs

/-- `factory.searchDocuments(User, ["firstName", "lastName", "email"], …)`
(userController line 168); the User schema has no `status` path. -/
def searchUsersFactory (q? : Option String) (rawPage rawLimit : Option Nat)
    (docs : List Doc) : Except String SDOk × Nat :=
  searchDocuments ["firstName", "lastName", "email"] false q? rawPage rawLimit docs

/-! ### The gallery search (`searchUploads`, dashboardController lines
461-502)

The guard is only `if (!query)` — a whitespace-only keyword is truthy and
proceeds.  One store round trip runs (`Upload.searchUploads`, a `$text`
query; its matching is abstracted as case-insensitive containment over the
indexed text fields, with score-order sorting left as given order); `total`
is approximated as the length of the returned page. -/

def textMatches (d : Doc) (q : String) : Bool :=
  containsCI d.title q || containsCI d.description q
    || d.tags.any (fun t => containsCI t q)

structure SUOk where
  uploads : List Doc
  page : Nat
  limit : Nat
  total : Nat
  pages : Nat
  deriving Repr, DecidableEq

def searchUploads (q? : Option String) (rawPage rawLimit : Option Nat)
    (category fileType : Option String) (docs : List Doc) :
    Except String SUOk × Nat :=
  let page := numOr rawPage 1
  let limit := numOr rawLimit 20
  match q? with
  | none => (.error "Search query is required", 0)
  | some q =>
      if q = "" then (.error "Search query is required", 0)
      else
        let pred := fun d =>
          textMatches d q && decide (d.status = "approved")
            && (match optTruthy category with
              | some c => decide (d.category = c)
              | none => true)
            && (match optTruthy fileType with
              | some f => decide (d.fileType = f)
              | none => true)
        let uploads := ((docs.filter pred).drop ((page - 1) * limit)).take limit
        (.ok { uploads := uploads
               page := page
               limit := limit
               total := uploads.length
               pages := jsPages uploads.length limit }, 1)

/-! ### Settings listing (`getAllSettings`, settingsController lines 52-98)
and missions listing (`getOpenMissions`)

Both count the **filtered** set for their pagination metadata
(`countDocuments(query)` / `countDocuments(filters)`), unlike the generic
`getAll`.  The populate/distinct decorations are out of the modelled
scope. -/

structure PagedList where
  items : List Doc
  page : Nat
  limit : Nat
  total : Nat
  pages : Nat
  deriving Repr, DecidableEq

/-- The filter object built by `getAllSettings` from its `category` and
`search` parameters. -/
def settingsPred (category search : Option String) (d : Doc) : Bool :=
  (match optTruthy category with
    | some c => decide (d.category = c)
    | none => true)
  && (match optTruthy search with
    | some s => containsCI d.key s || containsCI d.description s
    | none => true)

def getAllSettings (rawPage rawLimit : Option Nat)
    (category search : Option String) (docs : List Doc) : PagedList :=
  let page := numOr rawPage 1
  let limit := numOr rawLimit 50
  let matched := docs.filter (settingsPred category search)
  let sorted := sortWith (docLe false [("category", true), ("key", true)]) matched
  { items := (sorted.drop ((page - 1) * limit)).take limit
    page := page
    limit := limit
    total := countWhere (settingsPred category search) docs
    pages := jsPages (countWhere (settingsPred category search) docs) limit }

/-- The filter object built by `getOpenMissions`: `status: "open"` plus the
optional `type`, `city` (case-insensitive regex), and budget-bound
parameters (already numerically parsed; `parseInt` of an empty/absent
parameter is covered by `none`). -/
def missionsPred (type? city? : Option String) (minB maxB : Option Int)
    (d : Doc) : Bool :=
  decide (d.status = "open")
  && (match optTruthy type? with
    | some t => decide (d.type = t)
    | none => true)
  && (match optTruthy city? with
    | some c => containsCI d.locationCity c
    | none => true)
  && (match minB with
    | some n => decide (n ≤ d.budgetMin)
    | none => true)
  && (match maxB with
    | some n => decide (d.budgetMax ≤ n)
    | none => true)

def getOpenMissions (rawPage rawLimit : Option Nat)
    (type? city? : Option String) (minB maxB : Option Int)
    (docs : List Doc) : PagedList :=
  let page := numOr rawPage 1
  let limit := numOr rawLimit 10
  let matched := docs.filter (missionsPred type? city? minB maxB)
  let sorted := sortWith (docLe false [("createdAt", false)]) matched
  { items := (sorted.drop ((page - 1) * limit)).take limit
    page := page
    limit := limit
    total := countWhere (missionsPred type? city? minB maxB) docs
    pages := jsPages (countWhere (missionsPred type? city? minB maxB) docs) limit }

/-! ## C1, C7, C8, C9 -/

theorem getAllFeature_paginationResults (m : String) (fo q : QObj) (cnt : Nat) :
    (getAllFeature m fo q cnt).paginationResults
      = some (paginateCore (numOr (qgetNat q "page") 1)
          (numOr (qgetNat q "limit") 25) cnt) := by
  cases hkw : qgetTruthyStr q "keyword" <;>
    cases hs : qgetTruthyStr q "sort" <;>
      cases hf : qgetTruthyStr q "fields" <;>
        simp [getAllFeature, ApiFeatures.search, ApiFeatures.limitFields,
          ApiFeatures.filter, ApiFeatures.sort, ApiFeatures.paginate,
          hkw, hs, hf]

/-- Example query and fixture for the C1 divergence: three documents, a
filter matching one of them, and an explicit `limit=1`. -/
def c1query : QObj := [("category", QVal.str "photography"), ("limit", QVal.str "1")]

def c1docs : List Doc :=
  [{ category := "photography" }, { category := "video" }, { category := "graphics" }]

/-- C1: the generic `getAll` computes its pagination metadata from the
*unfiltered* collection total (`countDocuments()` with no predicate), even
when a filter restricts the returned documents, whereas `getAllSettings` and
the missions listing compute their pagination totals from the count of the
*filtered* set.  Concretely, listing `c1docs` with a `category` filter and
`limit=1` returns 1 document but reports 3 pages and a next page, while the
filtered total (1) would give a single page. -/
theorem listing_count_discipline :
    (∀ (modelName : String) (filterObj query : QObj) (docs : List Doc),
        (getAll modelName filterObj query docs).paginationResults
          = some (paginate (qgetNat query "page") (qgetNat query "limit")
              (countAll docs)))
      ∧ (∀ (rawPage rawLimit : Option Nat) (category search : Option String)
            (docs : List Doc),
          (getAllSettings rawPage rawLimit category search docs).total
            = countWhere (settingsPred category search) docs)
      ∧ (∀ (rawPage rawLimit : Option Nat) (t c : Option String)
            (mn mx : Option Int) (docs : List Doc),
          (getOpenMissions rawPage rawLimit t c mn mx docs).total
            = countWhere (missionsPred t c mn mx) docs)
      ∧ ((getAll "Upload" [] c1query c1docs).results = 1
          ∧ (getAll "Upload" [] c1query c1docs).paginationResults
              = some (paginateCore 1 1 3)
          ∧ (paginateCore 1 1 3).numberOfPages = 3
          ∧ (paginateCore 1 1 3).nextPage = some 2
          ∧ countWhere (matchesObj (filterQuery c1query)) c1docs = 1
          ∧ jsPages (countWhere (matchesObj (filterQuery c1query)) c1docs) 1 = 1) := by
  refine ⟨?_, ?_, ?_, ?_, ?_, ?_, ?_, ?_, ?_⟩
  · intro modelName filterObj query docs
    exact getAllFeature_paginationResults modelName filterObj query docs.length
  · intro rawPage rawLimit category search docs
    rfl
  · intro rawPage rawLimit t c mn mx docs
    rfl
  · decide
  · rfl
  · exact (ceil_div_eq_ceilDiv 3 1 (by norm_num)).trans (by norm_num)
  · decide
  · decide
  · rw [show countWhere (matchesObj (filterQuery c1query)) c1docs = 1 from by decide]
    exact (ceil_div_eq_ceilDiv 1 1 (by norm_num)).trans (by norm_num)

/-- C7 counterexample: the query helper `ApiFeatures.search` *does* itself
decide which fields the keyword search matches — it picks them from the
model name (`["name"]` for any model other than `"Product"`), not from a
caller-supplied list; in particular the generic list's keyword search for
uploads matches `name`, not title/description/tags. -/
theorem apiFeatures_search_fields_counterexample :
    searchFieldsFor "Upload" = ["name"]
      ∧ searchFieldsFor "Upload" ≠ ["title", "description", "tags"]
      ∧ ((ApiFeatures.mk {} [("keyword", QVal.str "sunset")] none).search
          "Upload").mongooseQuery.conds
        = [Cond.regexOr ["name"] "sunset"] := by
  refine ⟨by decide, by decide, by decide⟩

/-- C7 amended: the factory's `searchDocuments` matches exactly the
caller-supplied per-resource fields (title/description/tags for uploads,
firstName/lastName/email for users), but the `ApiFeatures.search` helper
used by the generic list operation decides the fields itself from the model
name (title/description for `"Product"`, otherwise `name`).  Concretely a
document carrying the keyword only in `tags` is found by the uploads
search endpoint but not by the generic list's keyword search. -/
theorem search_fields_provenance :
    (∀ (af : ApiFeatures) (modelName : String),
        (af.search modelName).mongooseQuery.conds
          = af.mongooseQuery.conds
            ++ (match qgetTruthyStr af.queryString "keyword" with
              | some kw => [Cond.regexOr (searchFieldsFor modelName) kw]
              | none => []))
      ∧ (∀ (fields : List String) (hs : Bool) (s : String)
            (rawPage rawLimit : Option Nat) (docs : List Doc),
          ((searchDocuments fields hs (some s) rawPage rawLimit
              docs).1.toOption.map SDOk.total)
            = if s = "" || trimL s = "" then none
              else some (countWhere (fun d =>
                evalCond (Cond.regexOr fields s) d && sdStatusGuard hs d) docs))
      ∧ ((searchUploadsFactory (some "sunset") none none
            [{ tags := ["sunset"], status := "approved" }]).1.toOption.map
          SDOk.total = some 1)
      ∧ ((getAll "Upload" [] [("keyword", QVal.str "sunset")]
            [{ tags := ["sunset"], status := "approved" }]).results = 0)
      ∧ ((searchUsersFactory (some "ali") none none
            [{ email := "ali@x.com" }]).1.toOption.map SDOk.total = some 1) := by
  refine ⟨?_, ?_, by decide, by decide, by decide⟩
  · intro af modelName
    cases hkw : qgetTruthyStr af.queryString "keyword" <;>
      simp [ApiFeatures.search, hkw]
  · intro fields hs s rawPage rawLimit docs
    by_cases h : (decide (s = "") || decide (trimL s = "")) = true
    · simp [searchDocuments, h, Except.toOption]
    · simp only [Bool.not_eq_true] at h
      simp [searchDocuments, h, Except.toOption, countWhere]

/-- C8 counterexample: the factory search endpoint's `limit` default is 10
(dashboardController line 272), which is not between 20 and 25. -/
theorem searchDocuments_limit_default_counterexample :
    ((searchDocuments ["title"] false (some "x") none none
        []).1.toOption.map SDOk.limit = some 10)
      ∧ ¬(20 ≤ (10 : Nat) ∧ (10 : Nat) ≤ 25) := by
  refine ⟨by decide, by decide⟩

/-- C8 amended: the generic `ApiFeatures.paginate` guarantees
`page ≥ 1 ∧ limit ≥ 1` with defaults `page = 1`, `limit = 25`; the
resource-specific endpoints apply their own defaults — 10 for the factory
search and the missions listing, 20 for the gallery search, 50 for the
settings listing — not all within 20–25. -/
theorem pagination_defaults :
    (∀ (rawPage rawLimit : Option Nat) (cnt : Nat),
        1 ≤ (paginate rawPage rawLimit cnt).currentPage
          ∧ 1 ≤ (paginate rawPage rawLimit cnt).limit)
      ∧ (∀ cnt : Nat, (paginate none none cnt).currentPage = 1
          ∧ (paginate none none cnt).limit = 25)
      ∧ ((searchDocuments ["title"] false (some "x") none none
            []).1.toOption.map SDOk.page = some 1
          ∧ (searchDocuments ["title"] false (some "x") none none
            []).1.toOption.map SDOk.limit = some 10)
      ∧ ((getAllSettings none none none none []).page = 1
          ∧ (getAllSettings none none none none []).limit = 50)
      ∧ (getOpenMissions none none none none none none []).limit = 10
      ∧ ((searchUploads (some "x") none none none none
            []).1.toOption.map SUOk.limit = some 20) := by
  refine ⟨?_, ?_, ⟨by decide, by decide⟩, ⟨by decide, by decide⟩, by decide,
    by decide⟩
  · intro rawPage rawLimit cnt
    exact ⟨numOr_pos rawPage 1 le_rfl, numOr_pos rawLimit 25 (by norm_num)⟩
  · intro cnt
    exact ⟨rfl, rfl⟩

/-- C9 counterexample: the gallery search endpoint guards only `!query`, so
the whitespace-only keyword `" "` is *not* rejected — a store query executes
(one round trip) and a success response is produced — although
`" ".trim() === ""`; the factory search endpoint, by contrast, rejects it
with no store access. -/
theorem searchUploads_whitespace_counterexample :
    trimL " " = ""
      ∧ (searchUploads (some " ") none none none none []).2 = 1
      ∧ isErr (searchUploads (some " ") none none none none []).1 = false
      ∧ (searchDocuments ["title"] false (some " ") none none []).2 = 0 := by
  refine ⟨by decide, by decide, by decide, by decide⟩

/-- C9 amended: the factory search (`searchDocuments`) rejects a missing,
empty or whitespace-only keyword before invoking the search query, and on
rejection no store query is executed; the gallery search (`searchUploads`)
rejects only a missing or empty keyword — a whitespace-only keyword is not
rejected and one store query executes.  The query helper itself imposes no
non-emptiness constraint (the guards are caller-level). -/
theorem search_keyword_guard_discipline :
    (∀ (fields : List String) (hs : Bool) (s : String)
        (rawPage rawLimit : Option Nat) (docs : List Doc),
        isErr (searchDocuments fields hs (some s) rawPage rawLimit docs).1
          = (decide (s = "") || decide (trimL s = "")))
      ∧ (∀ (fields : List String) (hs : Bool) (rawPage rawLimit : Option Nat)
            (docs : List Doc),
          isErr (searchDocuments fields hs none rawPage rawLimit docs).1 = true)
      ∧ (∀ (s : String) (rawPage rawLimit : Option Nat)
            (c f : Option String) (docs : List Doc),
          isErr (searchUploads (some s) rawPage rawLimit c f docs).1
            = decide (s = ""))
      ∧ (∀ (rawPage rawLimit : Option Nat) (c f : Option String)
            (docs : List Doc),
          isErr (searchUploads none rawPage rawLimit c f docs).1 = true)
      ∧ (∀ (q? : Option String) (fields : List String) (hs : Bool)
            (rawPage rawLimit : Option Nat) (docs : List Doc),
          (searchDocuments fields hs q? rawPage rawLimit docs).2
            = if isErr (searchDocuments fields hs q? rawPage rawLimit docs).1
              then 0 else 2)
      ∧ (∀ (q? : Option String) (rawPage rawLimit : Option Nat)
            (c f : Option String) (docs : List Doc),
          (searchUploads q? rawPage rawLimit c f docs).2
            = if isErr (searchUploads q? rawPage rawLimit c f docs).1
              then 0 else 1) := by
  refine ⟨?_, ?_, ?_, ?_, ?_, ?_⟩
  · intro fields hs s rawPage rawLimit docs
    by_cases h : (s = "" || trimL s = "") = true
    · simp only [searchDocuments, h, if_true]
      simp only [Bool.or_eq_true, decide_eq_true_eq] at h
      rcases h with h | h <;> simp [isErr, h]
    · simp only [Bool.not_eq_true] at h
      simp only [searchDocuments, h, Bool.false_eq_true, if_false]
      simp only [Bool.or_eq_false_iff, decide_eq_false_iff_not] at h
      simp [isErr, h.1, h.2]
  · intro fields hs rawPage rawLimit docs
    rfl
  · intro s rawPage rawLimit c f docs
    by_cases h : s = ""
    · simp [searchUploads, h, isErr]
    · simp [searchUploads, h, isErr]
  · intro rawPage rawLimit c f docs
    rfl
  · intro q? fields hs rawPage rawLimit docs
    match q? with
    | none => rfl
    | some s =>
        by_cases h : (s = "" || trimL s = "") = true
        · simp [searchDocuments, h, isErr]
        · simp only [Bool.not_eq_true] at h
          simp [searchDocuments, h, isErr]
  · intro q? rawPage rawLimit c f docs
    match q? with
    | none => rfl
    | some s =>
        by_cases h : s = ""
        · simp [searchUploads, h, isErr]
        · simp [searchUploads, h, isErr]

end Skyshot
